import Mathlib

/-!
Verification development for the gtsam nonlinear-optimization core:
shallow embedding of the constrained subsystem
(gtsam_unstable/nonlinear/NonlinearInequalityFactorGraph.h), the
calibrated camera (gtsam/geometry/CalibratedCamera.h) and the Pose2 SLAM
optimization driver (cpp/Pose2SLAMOptimizer.cpp), with theorems about
their specified behaviour. Real scalars are modelled by the rationals so
that every definition is executable and every comparison exact.
-/

namespace Gtsam

/-- Keys (gtsam::Key) are opaque totally ordered identifiers. -/
abbrev Key := Nat

/-- VectorValues: a map Key to vector, represented as an association list.
Only insertion order and key lookup matter to the embedded code. -/
abbrev VectorValues := List (Key × List ℚ)

/-- VectorValues::exists, the only VectorValues operation used by
checkFeasibilityAndComplimentary: is the key present in the map. -/
def VectorValues.existsKey (duals : VectorValues) (k : Key) : Bool :=
  duals.any (fun e => e.1 == k)

/-- A member factor of a NonlinearInequalityFactorGraph, as the code uses it:
it is simultaneously a NoiseModelFactor (providing unwhitenedError, a vector
of rationals indexed from 0) and a NonlinearConstraint (providing dualKey and
a linearization, the JacobianFactor produced by factor linearize at a point).
The Values type V and the JacobianFactor type J are parameters: the check and
the graph linearization only apply these fields, never inspect V or J. -/
structure InequalityFactor (V J : Type) where
  unwhitenedError : V → List ℚ
  dualKey : Key
  linearize : V → J

/-- A LinearInequality as built by NonlinearInequalityFactorGraph::linearize:
the JacobianFactor linearization paired with the dual key of its source. -/
structure LinearInequality (J : Type) where
  jacobian : J
  dualKey : Key

/-- NonlinearInequalityFactorGraph::linearize: for each member factor, in
order, emit a LinearInequality made of the factor linearization at the
linearization point and the dual key of the source factor. -/
def linearizeGraph {V J : Type} (graph : List (InequalityFactor V J))
    (linearizationPoint : V) : List (LinearInequality J) :=
  graph.map (fun factor =>
    { jacobian := factor.linearize linearizationPoint
      dualKey := factor.dualKey })

/-- NonlinearInequalityFactorGraph::checkFeasibilityAndComplimentary.
Mirrors the loop of the source: for each factor take the unwhitened error
vector and its component 0 (the source indexes error[0]; headD 0 totalizes
the C++ access, which presumes a nonempty vector); return false when
error[0] > tol (primal feasibility); then, when the dual key is present in
duals and |error[0]| > tol, return false (complementarity of an active
constraint); otherwise continue, and return true after the last factor. -/
def checkFeasibilityAndComplimentary {V J : Type} :
    List (InequalityFactor V J) → V → VectorValues → ℚ → Bool
  | [], _, _, _ => true
  | factor :: rest, values, duals, tol =>
    let error0 := (factor.unwhitenedError values).headD 0
    if tol < error0 then false
    else if duals.existsKey factor.dualKey ∧ tol < |error0| then false
    else checkFeasibilityAndComplimentary rest values duals tol

/-- Unfolding equation for checkFeasibilityAndComplimentary on a nonempty graph. -/
lemma check_cons {V J : Type} (f : InequalityFactor V J) (rest : List (InequalityFactor V J))
    (values : V) (duals : VectorValues) (tol : ℚ) :
    checkFeasibilityAndComplimentary (f :: rest) values duals tol =
      (if tol < (f.unwhitenedError values).headD 0 then false
       else if duals.existsKey f.dualKey ∧ tol < |(f.unwhitenedError values).headD 0| then false
       else checkFeasibilityAndComplimentary rest values duals tol) := rfl

/-- Claim C10: for an inequality factor graph containing no factors,
checkFeasibilityAndComplimentary returns true for every Values, every dual
map, and every tolerance, including a negative tolerance. -/
theorem check_empty_graph_c10 {V J : Type} (values : V) (duals : VectorValues) (tol : ℚ) :
    checkFeasibilityAndComplimentary ([] : List (InequalityFactor V J)) values duals tol = true :=
  rfl

/-- Claim C1: checkFeasibilityAndComplimentary returns false whenever some
constraint has unwhitened error (its component 0, the scalar value of the
inequality constraint) exceeding tol, and returns true whenever the dual map
has no entries and every constraint error is at most tol. Infeasibility is
the boolean false: the embedded function is total into Bool, no exception. -/
theorem check_feasibility_c1 {V J : Type} (graph : List (InequalityFactor V J)) (values : V)
    (duals : VectorValues) (tol : ℚ) :
    ((∃ f ∈ graph, tol < (f.unwhitenedError values).headD 0) →
       checkFeasibilityAndComplimentary graph values duals tol = false) ∧
    ((duals = [] ∧ ∀ f ∈ graph, (f.unwhitenedError values).headD 0 ≤ tol) →
       checkFeasibilityAndComplimentary graph values duals tol = true) := by
  induction graph with
  | nil =>
    exact ⟨fun ⟨f, hf, _⟩ => absurd hf (List.not_mem_nil f), fun _ => rfl⟩
  | cons f rest ih =>
    constructor
    · rintro ⟨g, hg, hgt⟩
      rw [check_cons]
      by_cases h1 : tol < (f.unwhitenedError values).headD 0
      · rw [if_pos h1]
      · rw [if_neg h1]
        by_cases h2 : duals.existsKey f.dualKey ∧ tol < |(f.unwhitenedError values).headD 0|
        · rw [if_pos h2]
        · rw [if_neg h2]
          rcases List.mem_cons.mp hg with rfl | hg2
          · exact absurd hgt h1
          · exact ih.1 ⟨g, hg2, hgt⟩
    · rintro ⟨hd, hall⟩
      rw [check_cons]
      rw [if_neg (not_lt.mpr (hall f (List.mem_cons_self f rest)))]
      rw [if_neg (fun hcon => by subst hd; simp [VectorValues.existsKey] at hcon)]
      exact ih.2 ⟨hd, fun g hg => hall g (List.mem_cons_of_mem f hg)⟩

/-- Claim C3: in checkFeasibilityAndComplimentary, a constraint whose dual
key is present forces the check to false when the magnitude of its
unwhitened error exceeds tol; when every constraint error is at most tol
and every active (dual-key-present) constraint has error magnitude at most
tol, the check returns true — so a constraint whose dual key is absent is
treated as inactive and places no complementarity requirement. -/
theorem check_complementarity_c3 {V J : Type} (graph : List (InequalityFactor V J)) (values : V)
    (duals : VectorValues) (tol : ℚ) :
    ((∃ f ∈ graph, duals.existsKey f.dualKey = true ∧
        tol < |(f.unwhitenedError values).headD 0|) →
       checkFeasibilityAndComplimentary graph values duals tol = false) ∧
    ((∀ f ∈ graph, (f.unwhitenedError values).headD 0 ≤ tol ∧
        (duals.existsKey f.dualKey = true → |(f.unwhitenedError values).headD 0| ≤ tol)) →
       checkFeasibilityAndComplimentary graph values duals tol = true) := by
  induction graph with
  | nil =>
    exact ⟨fun ⟨f, hf, _⟩ => absurd hf (List.not_mem_nil f), fun _ => rfl⟩
  | cons f rest ih =>
    constructor
    · rintro ⟨g, hg, hex, hgt⟩
      rw [check_cons]
      by_cases h1 : tol < (f.unwhitenedError values).headD 0
      · rw [if_pos h1]
      · rw [if_neg h1]
        by_cases h2 : duals.existsKey f.dualKey ∧ tol < |(f.unwhitenedError values).headD 0|
        · rw [if_pos h2]
        · rw [if_neg h2]
          rcases List.mem_cons.mp hg with rfl | hg2
          · exact absurd ⟨hex, hgt⟩ h2
          · exact ih.1 ⟨g, hg2, hex, hgt⟩
    · intro hall
      rw [check_cons]
      have hf := hall f (List.mem_cons_self f rest)
      rw [if_neg (not_lt.mpr hf.1)]
      rw [if_neg (fun hcon => absurd hcon.2 (not_lt.mpr (hf.2 hcon.1)))]
      exact ih.2 (fun g hg => hall g (List.mem_cons_of_mem f hg))

/-- Claim C9: checkFeasibilityAndComplimentary depends on the Values only
through the first component of each constraint unwhitened error vector:
two Values under which every factor has the same component 0 give the same
boolean for the same duals and tolerance. -/
theorem check_first_component_c9 {V J : Type} (graph : List (InequalityFactor V J))
    (v1 v2 : V) (duals : VectorValues) (tol : ℚ)
    (h : ∀ f ∈ graph, (f.unwhitenedError v1).headD 0 = (f.unwhitenedError v2).headD 0) :
    checkFeasibilityAndComplimentary graph v1 duals tol =
      checkFeasibilityAndComplimentary graph v2 duals tol := by
  induction graph with
  | nil => rfl
  | cons f rest ih =>
    have hf := h f (List.mem_cons_self f rest)
    rw [check_cons, check_cons, hf, ih (fun g hg => h g (List.mem_cons_of_mem f hg))]

/-- Claim C6: linearizing a nonlinear inequality factor graph produces one
linear inequality per member factor, in the same order, each consisting of
that factor Jacobian linearization at the Values together with the dual key
of its nonlinear source factor. -/
theorem linearize_graph_c6 {V J : Type} (graph : List (InequalityFactor V J)) (v : V)
    (i : Nat) (h : i < graph.length) :
    (linearizeGraph graph v).length = graph.length ∧
    (linearizeGraph graph v).get ⟨i, by simpa [linearizeGraph] using h⟩ =
      { jacobian := (graph.get ⟨i, h⟩).linearize v
        dualKey := (graph.get ⟨i, h⟩).dualKey } := by
  refine ⟨by simp [linearizeGraph], ?_⟩
  simp [linearizeGraph]

/-- A concrete infeasible constraint: unwhitened error 1 at every Values. -/
def facInfeasible : InequalityFactor Unit Unit :=
  { unwhitenedError := fun _ => [1], dualKey := 7, linearize := fun _ => () }

/-- A concrete feasible constraint: unwhitened error -1 at every Values. -/
def facFeasible : InequalityFactor Unit Unit :=
  { unwhitenedError := fun _ => [-1], dualKey := 8, linearize := fun _ => () }

/-- Witness for C1: the one-factor graph with error 1 fails the check at
tolerance 0, and the one-factor graph with error -1 passes it with an empty
dual map. -/
theorem check_feasibility_c1_witness :
    checkFeasibilityAndComplimentary [facInfeasible] () [] 0 = false ∧
    checkFeasibilityAndComplimentary [facFeasible] () [] 0 = true :=
  ⟨(check_feasibility_c1 [facInfeasible] () [] 0).1
      ⟨facInfeasible, List.mem_singleton.mpr rfl, by norm_num [facInfeasible]⟩,
   (check_feasibility_c1 [facFeasible] () [] 0).2
      ⟨rfl, by
        intro f hf
        rw [List.mem_singleton] at hf
        subst hf
        norm_num [facFeasible]⟩⟩

/-- A feasible but active constraint with nonzero error: error -5, dual key 3. -/
def facActiveViolated : InequalityFactor Unit Unit :=
  { unwhitenedError := fun _ => [-5], dualKey := 3, linearize := fun _ => () }

/-- An active binding constraint: error 0, dual key 3. -/
def facActiveBinding : InequalityFactor Unit Unit :=
  { unwhitenedError := fun _ => [0], dualKey := 3, linearize := fun _ => () }

/-- A dual map carrying an entry for key 3. -/
def dualsAt3 : VectorValues := [(3, [2])]

/-- Witness for C3: with the dual for key 3 present, the feasible constraint
with error -5 fails the check at tolerance 0 (complementarity), while the
binding constraint with error 0 passes it. -/
theorem check_complementarity_c3_witness :
    checkFeasibilityAndComplimentary [facActiveViolated] () dualsAt3 0 = false ∧
    checkFeasibilityAndComplimentary [facActiveBinding] () dualsAt3 0 = true :=
  ⟨(check_complementarity_c3 [facActiveViolated] () dualsAt3 0).1
      ⟨facActiveViolated, List.mem_singleton.mpr rfl, by decide, by norm_num [facActiveViolated]⟩,
   (check_complementarity_c3 [facActiveBinding] () dualsAt3 0).2
      (by
        intro f hf
        rw [List.mem_singleton] at hf
        subst hf
        exact ⟨le_refl 0, fun _ => by norm_num [facActiveBinding]⟩)⟩

/-- A constraint over rational Values whose error vector has a constant
first component 1 but a Values-dependent second component. -/
def facTailDependent : InequalityFactor ℚ Unit :=
  { unwhitenedError := fun v => [1, v], dualKey := 2, linearize := fun _ => () }

/-- Witness for C9: two different Values (0 and 5) give the same check
result because the first error component is 1 under both. -/
theorem check_first_component_c9_witness :
    checkFeasibilityAndComplimentary [facTailDependent] 0 [] 1 =
      checkFeasibilityAndComplimentary [facTailDependent] 5 [] 1 :=
  check_first_component_c9 [facTailDependent] 0 5 [] 1
    (by
      intro f hf
      rw [List.mem_singleton] at hf
      subst hf
      rfl)

/-- A concrete constraint with dual key 1 linearizing to the rational 10. -/
def facJacA : InequalityFactor Unit ℚ :=
  { unwhitenedError := fun _ => [0], dualKey := 1, linearize := fun _ => 10 }

/-- A concrete constraint with dual key 2 linearizing to the rational 20. -/
def facJacB : InequalityFactor Unit ℚ :=
  { unwhitenedError := fun _ => [0], dualKey := 2, linearize := fun _ => 20 }

/-- Witness for C6: linearizing the two-factor graph keeps the length and
puts the second factor linearization with its dual key at position 1. -/
theorem linearize_graph_c6_witness :
    (linearizeGraph [facJacA, facJacB] ()).length = [facJacA, facJacB].length ∧
    (linearizeGraph [facJacA, facJacB] ()).get
        ⟨1, by simp [linearizeGraph]⟩ =
      { jacobian := facJacB.linearize ()
        dualKey := facJacB.dualKey } :=
  linearize_graph_c6 [facJacA, facJacB] () 1 (by norm_num)

/-! ## Camera geometry (gtsam/geometry/CalibratedCamera.h)

The repository provides only the header: projection and backprojection are
declared with documented behaviour but their bodies live in a source file
that is not part of this repository, so they are modelled from the spec.
Scalars are rationals, 3D points are functions Fin 3 to rationals, 2D
points are functions Fin 2 to rationals. -/

/-- Modelled from the spec: Pose3 (gtsam/geometry/Pose3.h is not under the
repository sources) is a rigid transform, a rotation matrix together with a
translation. Orthogonality of the rotation is carried as a hypothesis where
a theorem needs it. -/
structure Pose3 where
  R : Matrix (Fin 3) (Fin 3) ℚ
  t : Fin 3 → ℚ

/-- Modelled from the spec: Pose3 transform of a world point into camera
coordinates (transform_to), the transpose of the rotation applied to the
translated point. -/
def transformTo (pose : Pose3) (p : Fin 3 → ℚ) : Fin 3 → ℚ :=
  pose.R.transpose.mulVec (p - pose.t)

/-- Modelled from the spec: Pose3 transform of a camera-frame point back
into world coordinates (transform_from), the inverse of transformTo for an
orthogonal rotation. -/
def transformFrom (pose : Pose3) (q : Fin 3 → ℚ) : Fin 3 → ℚ :=
  pose.R.mulVec q + pose.t

/-- CheiralityException: the distinct error kind raised when a projected
point has non-positive depth in camera coordinates. -/
inductive CheiralityException
  | thrown
deriving DecidableEq

/-- Modelled from the spec: PinholeBase::project_to_camera (declared at
CalibratedCamera.h lines 126-127, body not under the sources) computes the
normalized projection of a camera-coordinate point by division by its
depth, and raises the Cheirality error when the depth is non-positive. -/
def project_to_camera (P : Fin 3 → ℚ) : Except CheiralityException (Fin 2 → ℚ) :=
  if P 2 ≤ 0 then Except.error CheiralityException.thrown
  else Except.ok ![P 0 / P 2, P 1 / P 2]

/-- Modelled from the spec: PinholeBase::backproject_from_camera (declared
at CalibratedCamera.h line 132, body not under the sources) is the exact
algebraic inverse of the normalized projection at a known depth: scale the
normalized coordinates by the depth and append the depth. -/
def backproject_from_camera (p : Fin 2 → ℚ) (scale : ℚ) : Fin 3 → ℚ :=
  ![p 0 * scale, p 1 * scale, scale]

/-- PinholeBase: a camera holding a Pose3 (member pose_, accessor pose). -/
structure PinholeBase where
  pose : Pose3

/-- CalibratedCamera: a PinholeBase with identity calibration and no
additional state. -/
structure CalibratedCamera extends PinholeBase

/-- Modelled from the spec: CalibratedCamera::project (declared at
CalibratedCamera.h lines 318-320, body not under the sources) computes the
point in camera coordinates and then its normalized projection, and the
Cheirality error of a non-positive depth propagates to the caller. -/
def CalibratedCamera.project (cam : CalibratedCamera) (point : Fin 3 → ℚ) :
    Except CheiralityException (Fin 2 → ℚ) :=
  project_to_camera (transformTo cam.pose point)

/-- Modelled from the spec: camera backprojection, the inverse of project
at a known depth, mapping the camera-frame backprojection back to world
coordinates. -/
def CalibratedCamera.backproject (cam : CalibratedCamera) (p : Fin 2 → ℚ) (scale : ℚ) :
    Fin 3 → ℚ :=
  transformFrom cam.pose (backproject_from_camera p scale)

/-- Claim C2: projecting a point whose camera-frame depth is non-positive
yields the Cheirality error (never a finite 2D coordinate), and projecting
a point with positive depth yields a 2D coordinate and no Cheirality
error. -/
theorem project_cheirality_c2 (cam : CalibratedCamera) (p : Fin 3 → ℚ) :
    (transformTo cam.pose p 2 ≤ 0 →
       CalibratedCamera.project cam p = Except.error CheiralityException.thrown) ∧
    (0 < transformTo cam.pose p 2 →
       ∃ q, CalibratedCamera.project cam p = Except.ok q) := by
  constructor
  · intro h
    unfold CalibratedCamera.project project_to_camera
    rw [if_pos h]
  · intro h
    refine ⟨![transformTo cam.pose p 0 / transformTo cam.pose p 2,
              transformTo cam.pose p 1 / transformTo cam.pose p 2], ?_⟩
    unfold CalibratedCamera.project project_to_camera
    rw [if_neg (not_le.mpr h)]

/-- The camera at the world origin with identity orientation. -/
def identityCamera : CalibratedCamera :=
  { pose := { R := 1, t := 0 } }

/-- At the identity camera, camera coordinates agree with world coordinates. -/
lemma transformTo_identityCamera (p : Fin 3 → ℚ) :
    transformTo identityCamera.pose p = p := by
  simp [transformTo, identityCamera, Matrix.one_mulVec]

/-- Witness for C2: at the identity camera, the point of depth -1 projects
to the Cheirality error and the point of depth 3 projects to a coordinate. -/
theorem project_cheirality_c2_witness :
    CalibratedCamera.project identityCamera ![0, 0, -1] =
      Except.error CheiralityException.thrown ∧
    (∃ q, CalibratedCamera.project identityCamera ![1, 2, 3] = Except.ok q) :=
  ⟨(project_cheirality_c2 identityCamera ![0, 0, -1]).1
      (by rw [transformTo_identityCamera]; norm_num),
   (project_cheirality_c2 identityCamera ![1, 2, 3]).2
      (by rw [transformTo_identityCamera]; norm_num)⟩

/-- Claim C5: for a camera with an orthogonal rotation and a 3D point whose
camera-frame depth is positive, backprojecting the projection of the point
at that depth recovers the point exactly (an algebraic inverse, no
iteration and no approximation over the rationals). -/
theorem backproject_project_c5 (cam : CalibratedCamera) (p : Fin 3 → ℚ)
    (horth : cam.pose.R.transpose * cam.pose.R = 1)
    (hd : 0 < transformTo cam.pose p 2) :
    ∃ q, CalibratedCamera.project cam p = Except.ok q ∧
      CalibratedCamera.backproject cam q (transformTo cam.pose p 2) = p := by
  set w := transformTo cam.pose p with hw
  have hne : w 2 ≠ 0 := ne_of_gt hd
  refine ⟨![w 0 / w 2, w 1 / w 2], ?_, ?_⟩
  · unfold CalibratedCamera.project project_to_camera
    rw [← hw, if_neg (not_le.mpr hd)]
  · have hback : backproject_from_camera ![w 0 / w 2, w 1 / w 2] (w 2) = w := by
      funext i
      fin_cases i
      · simp [backproject_from_camera, div_mul_cancel₀ _ hne]
      · simp [backproject_from_camera, div_mul_cancel₀ _ hne]
      · simp [backproject_from_camera]
    unfold CalibratedCamera.backproject
    rw [hback, hw]
    unfold transformFrom transformTo
    rw [Matrix.mulVec_mulVec, Matrix.mul_eq_one_comm.mp horth, Matrix.one_mulVec]
    abel

/-- Witness for C5: at the identity camera, the point (1, 2, 3) has depth 3
and round-trips through projection and backprojection. -/
theorem backproject_project_c5_witness :
    ∃ q, CalibratedCamera.project identityCamera ![1, 2, 3] = Except.ok q ∧
      CalibratedCamera.backproject identityCamera q
        (transformTo identityCamera.pose ![1, 2, 3] 2) = ![1, 2, 3] :=
  backproject_project_c5 identityCamera ![1, 2, 3]
    (by simp [identityCamera])
    (by rw [transformTo_identityCamera]; norm_num)

/-! ## Range delegation (C8)

PinholeBase::range to a point and to a pose, and CalibratedCamera::range to
another camera, have their bodies inline in the header (CalibratedCamera.h
lines 141-160 and 329-332): each one returns the result of the underlying
Pose3 range computation on the same target, forwarding the optional
Jacobian requests. Pose3::range itself is not under the sources and is
modelled from the spec. -/

/-- Modelled from the spec: Pose3 range to a point is the Euclidean
distance from the pose translation to the point, with optionally computed
Jacobians with respect to the pose (6 columns) and the point (3 columns).
To stay within exact rational arithmetic the squared distance is returned;
equality of squared ranges is equivalent to equality of ranges. The
Jacobians are those of the squared distance: zero in the three rotation
coordinates (the distance from the camera center is rotation invariant)
and the gradient of the square in the translation and point coordinates. -/
def Pose3.rangeToPoint (pose : Pose3) (point : Fin 3 → ℚ) (wantDpose wantDpoint : Bool) :
    ℚ × Option (Fin 6 → ℚ) × Option (Fin 3 → ℚ) :=
  (∑ i, (point i - pose.t i) ^ 2,
   if wantDpose then
     some (fun j => if h : j.val < 3 then 0
       else -2 * (point ⟨j.val - 3, by omega⟩ - pose.t ⟨j.val - 3, by omega⟩))
   else none,
   if wantDpoint then some (fun i => 2 * (point i - pose.t i)) else none)

/-- Modelled from the spec: Pose3 range to another pose, the Euclidean
distance between the two translations (squared, as in rangeToPoint), with
optionally computed Jacobians with respect to each pose. -/
def Pose3.rangeToPose (pose other : Pose3) (wantDpose wantDother : Bool) :
    ℚ × Option (Fin 6 → ℚ) × Option (Fin 6 → ℚ) :=
  (∑ i, (other.t i - pose.t i) ^ 2,
   if wantDpose then
     some (fun j => if h : j.val < 3 then 0
       else -2 * (other.t ⟨j.val - 3, by omega⟩ - pose.t ⟨j.val - 3, by omega⟩))
   else none,
   if wantDother then
     some (fun j => if h : j.val < 3 then 0
       else 2 * (other.t ⟨j.val - 3, by omega⟩ - pose.t ⟨j.val - 3, by omega⟩))
   else none)

/-- PinholeBase::range(point, Dcamera, Dpoint): returns
pose_.range(point, Dcamera, Dpoint), the pose range computation on the
same target with the same Jacobian requests. -/
def PinholeBase.range (cam : PinholeBase) (point : Fin 3 → ℚ) (wantDpose wantDpoint : Bool) :
    ℚ × Option (Fin 6 → ℚ) × Option (Fin 3 → ℚ) :=
  cam.pose.rangeToPoint point wantDpose wantDpoint

/-- PinholeBase::range(pose, Dcamera, Dpose): returns
pose_.range(pose, Dcamera, Dpose). -/
def PinholeBase.rangeOfPose (cam : PinholeBase) (other : Pose3) (wantDpose wantDother : Bool) :
    ℚ × Option (Fin 6 → ℚ) × Option (Fin 6 → ℚ) :=
  cam.pose.rangeToPose other wantDpose wantDother

/-- CalibratedCamera::range(camera, H1, H2): returns
pose().range(camera.pose(), H1, H2). -/
def CalibratedCamera.range (cam other : CalibratedCamera) (w1 w2 : Bool) :
    ℚ × Option (Fin 6 → ℚ) × Option (Fin 6 → ℚ) :=
  cam.pose.rangeToPose other.pose w1 w2

/-- Claim C8: the camera range operations return exactly the value and
optional Jacobians of the underlying Pose3 range computation applied to
the same target, for every camera, target point or pose or camera, and
every Jacobian request: camera range and pose range are equal as
functions. -/
theorem camera_range_delegates_c8 (cam : CalibratedCamera) (point : Fin 3 → ℚ)
    (pose : Pose3) (other : CalibratedCamera) (w1 w2 : Bool) :
    PinholeBase.range cam.toPinholeBase point w1 w2 =
        Pose3.rangeToPoint cam.pose point w1 w2 ∧
    PinholeBase.rangeOfPose cam.toPinholeBase pose w1 w2 =
        Pose3.rangeToPose cam.pose pose w1 w2 ∧
    CalibratedCamera.range cam other w1 w2 =
        Pose3.rangeToPose cam.pose other.pose w1 w2 :=
  ⟨rfl, rfl, rfl⟩

/-! ## Optimization driver (cpp/Pose2SLAMOptimizer.cpp)

The constructor and the two update entry points are in the sources; the
collaborators they call (load2D, addPrior, noiseModel Unit creation, the
solver, and the VectorConfig overload of update) are declared elsewhere and
modelled from the spec. The loaded measurement payload type M and the pose
type P are parameters. -/

/-- Modelled from the spec: a noise model; Unit dim is what
noiseModel Unit Create(dim) builds. -/
inductive NoiseModel
  | unitModel (dim : Nat)
  | diagonal (sigmas : List ℚ)
deriving DecidableEq

/-- A factor of the driver graph: either a measurement factor loaded from
the dataset or a prior factor added by addPrior(key, value, model). -/
inductive Pose2Factor (M P : Type)
  | measurement (m : M)
  | prior (key : Key) (value : P) (noise : NoiseModel)

/-- Whether a graph factor is a prior factor. -/
def Pose2Factor.isPrior {M P : Type} : Pose2Factor M P → Bool
  | .measurement _ => false
  | .prior _ _ _ => true

/-- Observable calls the constructor makes on its collaborators, in order. -/
inductive DriverEvent
  | addPriorCall
  | initializeSolverCall
deriving DecidableEq

/-- The state owned by a Pose2SLAMOptimizer: the factor graph, the current
Values theta (an ordered association list, as iteration order of begin is
observable), and the trace of collaborator calls made so far. -/
structure Pose2SLAMState (M P : Type) where
  graph : List (Pose2Factor M P)
  theta : List (Key × P)
  trace : List DriverEvent

/-- Pose2SLAMOptimizer constructor (Pose2SLAMOptimizer.cpp lines 19-36):
after load2D returns the measurement graph and the initial estimate theta,
it calls addPrior on the first variable of theta with its loaded value and
a unit noise model of dimension 3, then initializes the solver. On an
empty theta the C++ dereferences the begin iterator of an empty container,
which is undefined; the embedding returns none there. -/
def mkPose2SLAMOptimizer {M P : Type} (loaded : List M) (theta0 : List (Key × P)) :
    Option (Pose2SLAMState M P) :=
  match theta0 with
  | [] => none
  | (k, v) :: rest =>
    some { graph := loaded.map Pose2Factor.measurement ++
             [Pose2Factor.prior k v (NoiseModel.unitModel 3)]
           theta := (k, v) :: rest
           trace := [DriverEvent.addPriorCall, DriverEvent.initializeSolverCall] }

/-- Claim C7: after construction from a dataset with a nonempty initial
assignment, the factor graph is the loaded measurement factors plus exactly
one anchoring prior, on the first variable of the initial assignment, with
a unit noise model, and the addPrior call happens before the solver
initialization call. -/
theorem constructor_prior_c7 {M P : Type} (loaded : List M) (k : Key) (v : P)
    (rest : List (Key × P)) :
    ∃ st, mkPose2SLAMOptimizer loaded ((k, v) :: rest) = some st ∧
      st.graph = loaded.map Pose2Factor.measurement ++
        [Pose2Factor.prior k v (NoiseModel.unitModel 3)] ∧
      st.graph.countP (fun f => f.isPrior) = 1 ∧
      st.trace = [DriverEvent.addPriorCall, DriverEvent.initializeSolverCall] := by
  refine ⟨_, rfl, rfl, ?_, rfl⟩
  simp [List.countP_append, List.countP_map, Pose2Factor.isPrior, Function.comp,
    List.countP_eq_zero.mpr]

/-- The per-variable retraction applied by the update step: each variable
present in the tangent map is retracted by its tangent vector, every other
variable is unchanged. The retraction of the pose type is a parameter. -/
def retractAll {P : Type} (retractP : P → List ℚ → P) (theta : List (Key × P))
    (X : List (Key × List ℚ)) : List (Key × P) :=
  theta.map (fun kv =>
    match X.find? (fun e => e.1 == kv.1) with
    | none => kv
    | some e => (kv.1, retractP kv.2 e.2))

/-- Modelled from the spec: Pose2SLAMOptimizer::update(const VectorConfig&)
is not under the sources; per the spec it converts the correction into a
per-variable TangentMap and applies retract to every affected variable,
producing the next Values. -/
def updateConfig {M P : Type} (retractP : P → List ℚ → P) (st : Pose2SLAMState M P)
    (X : List (Key × List ℚ)) : Pose2SLAMState M P :=
  { st with theta := retractAll retractP st.theta X }

/-- Pose2SLAMOptimizer::update(const Vector&) (Pose2SLAMOptimizer.cpp lines
39-42): the source constructs a default (empty) VectorConfig X, marked
TODO, and calls update(X); the correction vector x is never read. -/
def Pose2SLAMOptimizer.update {M P : Type} (retractP : P → List ℚ → P)
    (st : Pose2SLAMState M P) (x : List ℚ) : Pose2SLAMState M P :=
  updateConfig retractP st []

/-- Pose2SLAMOptimizer::updatePreconditioned(const Vector&)
(Pose2SLAMOptimizer.cpp lines 45-48): the source constructs a default
(empty) Vector x and calls update(x); the preconditioned correction y is
never read and no coordinate mapping happens. -/
def Pose2SLAMOptimizer.updatePreconditioned {M P : Type} (retractP : P → List ℚ → P)
    (st : Pose2SLAMState M P) (y : List ℚ) : Pose2SLAMState M P :=
  Pose2SLAMOptimizer.update retractP st []

/-- Claim C4 fails on the code: both update entry points ignore their
correction argument and leave the Values unchanged, so no retraction of a
supplied correction ever happens; this theorem evaluates the embedded code
and records that behaviour for every state and every correction vector. -/
theorem update_ignores_correction_c4 {M P : Type} (retractP : P → List ℚ → P)
    (st : Pose2SLAMState M P) (x y : List ℚ) :
    Pose2SLAMOptimizer.update retractP st x = st ∧
    Pose2SLAMOptimizer.updatePreconditioned retractP st y = st := by
  have h : Pose2SLAMOptimizer.update retractP st x = st := by
    unfold Pose2SLAMOptimizer.update updateConfig retractAll
    simp
  exact ⟨h, h⟩

end Gtsam
